import Mathlib

/-!
Verification of the png-message chunk core: a shallow embedding of
`src/chunk_type.rs` (the 4-byte chunk type code) and `src/chunk.rs`
(the chunk container with length/type/payload/CRC wire format),
together with theorems settling the specified properties.

Bytes are modelled as `Nat` (with `< 256` hypotheses where byte-ness
matters), `u32`/`usize` arithmetic as `Nat` with explicit `% 2 ^ 32` /
`% 2 ^ 64` at the points where the Rust code casts or can wrap.
Fallible operations return `Except String _`, mirroring the
`Result<_, &'static str>` signatures of the source.
-/

set_option maxRecDepth 100000

/-- Decidable equality on `Except`, so that parser outcomes can be
checked by `decide` on concrete inputs. -/
instance instDecidableEqExcept {ε α : Type} [DecidableEq ε] [DecidableEq α] :
    DecidableEq (Except ε α)
  | .error e, .error f =>
    if h : e = f then .isTrue (by rw [h])
    else .isFalse (fun hc => h (by injection hc))
  | .error _, .ok _ => .isFalse (fun hc => Except.noConfusion hc)
  | .ok _, .error _ => .isFalse (fun hc => Except.noConfusion hc)
  | .ok a, .ok b =>
    if h : a = b then .isTrue (by rw [h])
    else .isFalse (fun hc => h (by injection hc))

namespace PngMessage

/-- Model of `u8::is_ascii_alphabetic`: `A`-`Z` (65-90) or `a`-`z` (97-122). -/
def isAsciiAlphabetic (b : Nat) : Bool :=
  (65 ≤ b && b ≤ 90) || (97 ≤ b && b ≤ 122)

/-- Model of `u8::is_ascii` (used via `str::is_ascii`): code point below 128. -/
def isAsciiByte (b : Nat) : Bool :=
  b ≤ 127

/-! ## CRC-32 (IEEE)

The source delegates to the external `crc` crate's
`crc32::checksum_ieee`: the standard CRC-32/ISO-HDLC checksum
(reflected polynomial `0xEDB88320`, initial value `0xFFFFFFFF`,
final XOR `0xFFFFFFFF`), embedded here bit by bit over `Nat`. -/

/-- One bit step of reflected CRC-32: shift right, XOR the polynomial
if the bit shifted out was set. -/
def crcBit (c : Nat) : Nat :=
  if c % 2 = 1 then (c / 2) ^^^ 0xEDB88320 else c / 2

/-- Iterate `n` bit steps. -/
def crcRounds : Nat → Nat → Nat
  | 0, c => c
  | n + 1, c => crcRounds n (crcBit c)

/-- Absorb one byte into the running CRC state: XOR it in, then 8 bit steps. -/
def crcByte (c b : Nat) : Nat :=
  crcRounds 8 (c ^^^ b)

/-- Absorb a list of bytes into the running CRC state. -/
def crcUpdate (c : Nat) : List Nat → Nat
  | [] => c
  | b :: bs => crcUpdate (crcByte c b) bs

/-- Model of `crc::crc32::checksum_ieee` over a byte sequence. -/
def checksum_ieee (data : List Nat) : Nat :=
  crcUpdate 0xFFFFFFFF data ^^^ 0xFFFFFFFF

/-! ## 32-bit big-endian byte conversions -/

/-- Model of `u32::to_be_bytes`: the four big-endian base-256 digits of
the low 32 bits of `n`. -/
def u32_to_be_bytes (n : Nat) : List Nat :=
  [n / 2 ^ 24 % 256, n / 2 ^ 16 % 256, n / 2 ^ 8 % 256, n % 256]

/-- Model of `u32::from_be_bytes` on (the first four entries of) a byte
list. -/
def u32_from_be_bytes (bs : List Nat) : Nat :=
  bs.getD 0 0 * 2 ^ 24 + bs.getD 1 0 * 2 ^ 16 + bs.getD 2 0 * 2 ^ 8 + bs.getD 3 0

/-- Two's-complement wrapping subtraction on 64-bit `usize`: the
behaviour of Rust's `-` when overflow checks are off (release
profile).  With overflow checks on (debug profile) the program
instead aborts when the subtrahend exceeds the minuend; that abort
condition is modelled separately by `Chunk.tryFromSubUnderflows`. -/
def usizeSub (a b : Nat) : Nat :=
  (2 ^ 64 + a % 2 ^ 64 - b % 2 ^ 64) % 2 ^ 64

/-! ## ChunkType (`src/chunk_type.rs`) -/

/-- A 4-byte chunk type code (`struct ChunkType { bytes: [u8; 4] }`). -/
structure ChunkType where
  bytes : List Nat
deriving DecidableEq, Repr

/-- Model of `impl TryFrom<[u8; 4]> for ChunkType`: wraps the bytes verbatim and
never fails. -/
def ChunkType.tryFrom (value : List Nat) : Except String ChunkType :=
  .ok ⟨value⟩

/-- The per-byte range test of `ChunkType::is_valid`: reject a byte
before `A` (65) or after `z` (122), and reject a byte strictly between
`Z` (90) and `a` (97). -/
def ChunkType.rangeCheck (b : Nat) : Bool :=
  !(b < 65 || 122 < b) && !(90 < b && b < 97)

/-- Model of `ChunkType::is_critical`: bit 5 of byte 0 is zero. -/
def ChunkType.is_critical (c : ChunkType) : Bool :=
  c.bytes.getD 0 0 &&& 32 == 0

/-- Model of `ChunkType::is_public`: bit 5 of byte 1 is zero. -/
def ChunkType.is_public (c : ChunkType) : Bool :=
  c.bytes.getD 1 0 &&& 32 == 0

/-- Model of `ChunkType::is_reserved_bit_valid`: bit 5 of byte 2 is zero. -/
def ChunkType.is_reserved_bit_valid (c : ChunkType) : Bool :=
  c.bytes.getD 2 0 &&& 32 == 0

/-- Model of `ChunkType::is_safe_to_copy`: bit 5 of byte 3 is one. -/
def ChunkType.is_safe_to_copy (c : ChunkType) : Bool :=
  !(c.bytes.getD 3 0 &&& 32 == 0)

/-- Model of `ChunkType::is_valid`: every byte passes the range test (the
per-byte early returns of the source loop), and the reserved bit is
valid. -/
def ChunkType.is_valid (c : ChunkType) : Bool :=
  c.bytes.all ChunkType.rangeCheck && c.is_reserved_bit_valid

/-- Model of `impl FromStr for ChunkType`, acting on the UTF-8 bytes of the
input string: length must be exactly 4 (`InvalidLength` kind,
`"Invalid string length"`), the string must be ASCII and every byte
ASCII-alphabetic (`InvalidCharacter` kind, `"Invalid string"`); on
success the first 4 bytes are stored verbatim. -/
def ChunkType.fromStr (s : List Nat) : Except String ChunkType :=
  if s.length ≠ 4 then
    .error "Invalid string length"
  else if !s.all isAsciiByte then
    .error "Invalid string"
  else if !s.all isAsciiAlphabetic then
    .error "Invalid string"
  else
    .ok ⟨s.take 4⟩

/-! ## Chunk (`src/chunk.rs`) -/

/-- Model of `struct Chunk { length: usize, chunk_type: ChunkType, data: Vec<u8>, crc: u32 }`. -/
structure Chunk where
  length : Nat
  chunk_type : ChunkType
  data : List Nat
  crc : Nat
deriving DecidableEq, Repr

/-- Model of `Chunk::new`: length is the payload length, and the CRC is
`checksum_ieee` over the type-code bytes followed by the payload. -/
def Chunk.new (chunk_type : ChunkType) (data : List Nat) : Chunk :=
  let crc_data := chunk_type.bytes ++ data
  { length := data.length
    chunk_type := chunk_type
    crc := checksum_ieee crc_data
    data := data }

/-- Model of `Chunk::length()`: returns `self.length as u32` (a `usize`-to-`u32`
cast, hence the `% 2 ^ 32`). -/
def Chunk.length_u32 (c : Chunk) : Nat :=
  c.length % 2 ^ 32

/-- Model of `Chunk::as_bytes`: big-endian length (cast to `u32`), type-code
bytes, payload, big-endian CRC. -/
def Chunk.as_bytes (c : Chunk) : List Nat :=
  u32_to_be_bytes (c.length % 2 ^ 32) ++ c.chunk_type.bytes ++ c.data ++ u32_to_be_bytes c.crc

/-- Model of `impl TryFrom<&[u8]> for Chunk`, with the length-mismatch test
`value.len() - length != 12` taken at its release-profile (wrapping)
semantics `usizeSub`. -/
def Chunk.tryFrom (value : List Nat) : Except String Chunk :=
  if value.length < 12 then
    .error "Invalid length"
  else
    let length := u32_from_be_bytes (value.take 4)
    if usizeSub value.length length ≠ 12 then
      .error "Invalid input"
    else
      match ChunkType.tryFrom ((value.drop 4).take 4) with
      | .error e => .error e
      | .ok chunk_type =>
        let data_len := value.length - 12
        let data := (value.drop 8).take data_len
        let crc := u32_from_be_bytes (value.drop (8 + data_len))
        let checksum := checksum_ieee ((value.drop 4).take (4 + data_len))
        if crc ≠ checksum then
          .error "Invalid CRC"
        else
          .ok { length := length, chunk_type := chunk_type, data := data, crc := crc }

/-- The condition under which the subtraction `value.len() - length`
inside `Chunk::try_from` underflows, aborting the process in builds
with overflow checks (the default debug/test profile): the length
guard `value.len() >= 12` has passed, yet the declared big-endian
length field exceeds the buffer's actual length. -/
def Chunk.tryFromSubUnderflows (value : List Nat) : Bool :=
  12 ≤ value.length && value.length < u32_from_be_bytes (value.take 4)

/-! ## Concrete test vectors (from the source's test modules) -/

/-- The UTF-8 bytes of `"This is where your secret message will be!"`,
the payload of `testing_chunk()` in `src/chunk.rs`. -/
def msgBytes : List Nat :=
  [84, 104, 105, 115, 32, 105, 115, 32, 119, 104, 101, 114, 101, 32, 121,
   111, 117, 114, 32, 115, 101, 99, 114, 101, 116, 32, 109, 101, 115, 115,
   97, 103, 101, 32, 119, 105, 108, 108, 32, 98, 101, 33]

/-- The type code `"RuSt"` (bytes 82, 117, 83, 116). -/
def rustTy : ChunkType :=
  ⟨[82, 117, 83, 116]⟩

/-- A 12-byte buffer whose declared big-endian length field (13) exceeds
the buffer's actual length (12). -/
def shortDeclaredFrame : List Nat :=
  [0, 0, 0, 13, 0, 0, 0, 0, 0, 0, 0, 0]

/-- The 54-byte `"RuSt"` frame of `test_invalid_chunk_from_bytes`: the
valid frame with its checksum field replaced by `2882656333`. -/
def corruptFrame : List Nat :=
  u32_to_be_bytes 42 ++ [82, 117, 83, 116] ++ msgBytes ++ u32_to_be_bytes 2882656333

/-- A consistent 12-byte frame whose type code `[1, 2, 3, 255]` is
neither ASCII-alphabetic nor reserved-bit-clear. -/
def oddTypeFrame : List Nat :=
  [0, 0, 0, 0] ++ [1, 2, 3, 255] ++ u32_to_be_bytes 2622738521

/-- The chunk produced by parsing the minimal `"RuSt"` frame with empty
payload (CRC-32 of `"RuSt"` is 3565422908). -/
def chunkRuSt0 : Chunk :=
  { length := 0, chunk_type := rustTy, data := [], crc := 3565422908 }

/-! ## Auxiliary lemmas -/

theorem crcBit_lt {c : Nat} (h : c < 2 ^ 32) : crcBit c < 2 ^ 32 := by
  unfold crcBit
  split
  · exact Nat.xor_lt_two_pow (by omega) (by norm_num)
  · omega

theorem crcRounds_lt (n : Nat) {c : Nat} (h : c < 2 ^ 32) : crcRounds n c < 2 ^ 32 := by
  induction n generalizing c with
  | zero => exact h
  | succ k ih => exact ih (crcBit_lt h)

theorem crcByte_lt {c b : Nat} (hc : c < 2 ^ 32) (hb : b < 2 ^ 32) :
    crcByte c b < 2 ^ 32 :=
  crcRounds_lt 8 (Nat.xor_lt_two_pow hc hb)

theorem crcUpdate_lt {bs : List Nat} {c : Nat} (hc : c < 2 ^ 32)
    (hb : ∀ b ∈ bs, b < 2 ^ 32) : crcUpdate c bs < 2 ^ 32 := by
  induction bs generalizing c with
  | nil => exact hc
  | cons x xs ih =>
    exact ih (crcByte_lt hc (hb x (List.mem_cons_self x xs)))
      (fun b hbm => hb b (List.mem_cons_of_mem x hbm))

theorem checksum_ieee_lt {bs : List Nat} (hb : ∀ b ∈ bs, b < 2 ^ 32) :
    checksum_ieee bs < 2 ^ 32 :=
  Nat.xor_lt_two_pow (crcUpdate_lt (by norm_num) hb) (by norm_num)

theorem getD_lt_of_forall {bs : List Nat} {m : Nat} (h : ∀ b ∈ bs, b < m)
    (hm : 0 < m) (i : Nat) : bs.getD i 0 < m := by
  induction bs generalizing i with
  | nil => simpa [List.getD] using hm
  | cons x xs ih =>
    cases i with
    | zero => exact h x (List.mem_cons_self x xs)
    | succ j =>
      exact ih (fun b hbm => h b (List.mem_cons_of_mem x hbm)) j

theorem u32_from_be_bytes_lt {bs : List Nat} (h : ∀ b ∈ bs, b < 256) :
    u32_from_be_bytes bs < 2 ^ 32 := by
  have h0 := getD_lt_of_forall h (by norm_num) 0
  have h1 := getD_lt_of_forall h (by norm_num) 1
  have h2 := getD_lt_of_forall h (by norm_num) 2
  have h3 := getD_lt_of_forall h (by norm_num) 3
  unfold u32_from_be_bytes
  omega

theorem u32_from_to_be_bytes (n : Nat) :
    u32_from_be_bytes (u32_to_be_bytes n) = n % 2 ^ 32 := by
  simp only [u32_from_be_bytes, u32_to_be_bytes, List.getD_cons_zero, List.getD_cons_succ]
  omega

theorem u32_to_be_bytes_length (n : Nat) : (u32_to_be_bytes n).length = 4 := by
  simp [u32_to_be_bytes]

theorem u32_to_be_bytes_mem {n b : Nat} (h : b ∈ u32_to_be_bytes n) : b < 256 := by
  simp only [u32_to_be_bytes, List.mem_cons, List.not_mem_nil, or_false] at h
  rcases h with rfl | rfl | rfl | rfl <;> omega

theorem usizeSub_eq_twelve_iff {L d : Nat} (hL : L < 2 ^ 64) (hd : d < 2 ^ 32) :
    usizeSub L d = 12 ↔ L = d + 12 := by
  unfold usizeSub
  omega

theorem and_32_eq_zero_iff (x : Nat) : (x &&& 32 == 0) = true ↔ x.testBit 5 = false := by
  have h := Nat.and_two_pow x 5
  norm_num at h
  rw [h]
  cases hx : x.testBit 5 <;> simp

theorem Chunk.new_length (t : ChunkType) (d : List Nat) : (Chunk.new t d).length = d.length :=
  rfl

theorem Chunk.new_chunk_type (t : ChunkType) (d : List Nat) : (Chunk.new t d).chunk_type = t :=
  rfl

theorem Chunk.new_data (t : ChunkType) (d : List Nat) : (Chunk.new t d).data = d :=
  rfl

theorem Chunk.new_crc (t : ChunkType) (d : List Nat) :
    (Chunk.new t d).crc = checksum_ieee (t.bytes ++ d) :=
  rfl

theorem Chunk.length_u32_def (c : Chunk) : c.length_u32 = c.length % 2 ^ 32 :=
  rfl

/-! ### Characterization of `Chunk.tryFrom` -/

theorem tryFrom_eq_error_of_short {value : List Nat} (h : value.length < 12) :
    Chunk.tryFrom value = .error "Invalid length" := by
  simp [Chunk.tryFrom, h]

theorem tryFrom_eq_error_of_mismatch {value : List Nat} (h12 : ¬ value.length < 12)
    (hsub : usizeSub value.length (u32_from_be_bytes (value.take 4)) ≠ 12) :
    Chunk.tryFrom value = .error "Invalid input" := by
  simp [Chunk.tryFrom, h12, hsub]

theorem tryFrom_eq_error_of_crc {value : List Nat} (h12 : ¬ value.length < 12)
    (hsub : usizeSub value.length (u32_from_be_bytes (value.take 4)) = 12)
    (hcrc : u32_from_be_bytes (value.drop (8 + (value.length - 12))) ≠
      checksum_ieee ((value.drop 4).take (4 + (value.length - 12)))) :
    Chunk.tryFrom value = .error "Invalid CRC" := by
  simp [Chunk.tryFrom, ChunkType.tryFrom, h12, hsub, hcrc]

theorem tryFrom_eq_ok {value : List Nat} (h12 : ¬ value.length < 12)
    (hsub : usizeSub value.length (u32_from_be_bytes (value.take 4)) = 12)
    (hcrc : u32_from_be_bytes (value.drop (8 + (value.length - 12))) =
      checksum_ieee ((value.drop 4).take (4 + (value.length - 12)))) :
    Chunk.tryFrom value = .ok
      { length := u32_from_be_bytes (value.take 4)
        chunk_type := ⟨(value.drop 4).take 4⟩
        data := (value.drop 8).take (value.length - 12)
        crc := u32_from_be_bytes (value.drop (8 + (value.length - 12))) } := by
  simp [Chunk.tryFrom, ChunkType.tryFrom, h12, hsub, hcrc]

theorem tryFrom_ok_inv {value : List Nat} {c : Chunk} (h : Chunk.tryFrom value = .ok c) :
    ¬ value.length < 12 ∧
    usizeSub value.length (u32_from_be_bytes (value.take 4)) = 12 ∧
    u32_from_be_bytes (value.drop (8 + (value.length - 12))) =
      checksum_ieee ((value.drop 4).take (4 + (value.length - 12))) ∧
    c = { length := u32_from_be_bytes (value.take 4)
          chunk_type := ⟨(value.drop 4).take 4⟩
          data := (value.drop 8).take (value.length - 12)
          crc := u32_from_be_bytes (value.drop (8 + (value.length - 12))) } := by
  by_cases h1 : value.length < 12
  · rw [tryFrom_eq_error_of_short h1] at h
    exact Except.noConfusion h
  · by_cases h2 : usizeSub value.length (u32_from_be_bytes (value.take 4)) = 12
    · by_cases h3 : u32_from_be_bytes (value.drop (8 + (value.length - 12))) =
        checksum_ieee ((value.drop 4).take (4 + (value.length - 12)))
      · refine ⟨h1, h2, h3, ?_⟩
        rw [tryFrom_eq_ok h1 h2 h3] at h
        injection h with h
        exact h.symm
      · rw [tryFrom_eq_error_of_crc h1 h2 h3] at h
        exact Except.noConfusion h
    · rw [tryFrom_eq_error_of_mismatch h1 h2] at h
      exact Except.noConfusion h

/-! ### Decomposition of `Chunk.as_bytes` -/

theorem as_bytes_eq (c : Chunk) :
    c.as_bytes = u32_to_be_bytes (c.length % 2 ^ 32) ++
      (c.chunk_type.bytes ++ (c.data ++ u32_to_be_bytes c.crc)) := by
  simp [Chunk.as_bytes, List.append_assoc]

theorem as_bytes_length (c : Chunk) (h4 : c.chunk_type.bytes.length = 4) :
    c.as_bytes.length = 12 + c.data.length := by
  simp [Chunk.as_bytes, u32_to_be_bytes, h4]
  omega

theorem as_bytes_take_four (c : Chunk) :
    c.as_bytes.take 4 = u32_to_be_bytes (c.length % 2 ^ 32) := by
  rw [as_bytes_eq]
  exact List.take_left' (u32_to_be_bytes_length _)

theorem as_bytes_drop_four (c : Chunk) :
    c.as_bytes.drop 4 = c.chunk_type.bytes ++ (c.data ++ u32_to_be_bytes c.crc) := by
  rw [as_bytes_eq]
  exact List.drop_left' (u32_to_be_bytes_length _)

theorem as_bytes_drop_four_take_four (c : Chunk) (h4 : c.chunk_type.bytes.length = 4) :
    (c.as_bytes.drop 4).take 4 = c.chunk_type.bytes := by
  rw [as_bytes_drop_four]
  exact List.take_left' h4

theorem as_bytes_drop_eight (c : Chunk) (h4 : c.chunk_type.bytes.length = 4) :
    c.as_bytes.drop 8 = c.data ++ u32_to_be_bytes c.crc := by
  have h8 : (8 : Nat) = 4 + 4 := rfl
  rw [h8, ← List.drop_drop, as_bytes_drop_four]
  exact List.drop_left' h4

theorem as_bytes_drop_eight_take (c : Chunk) (h4 : c.chunk_type.bytes.length = 4) :
    (c.as_bytes.drop 8).take c.data.length = c.data := by
  rw [as_bytes_drop_eight c h4]
  exact List.take_left _ _

theorem as_bytes_drop_tail (c : Chunk) (h4 : c.chunk_type.bytes.length = 4) :
    c.as_bytes.drop (8 + c.data.length) = u32_to_be_bytes c.crc := by
  rw [← List.drop_drop, as_bytes_drop_eight c h4]
  exact List.drop_left _ _

theorem as_bytes_middle (c : Chunk) (h4 : c.chunk_type.bytes.length = 4) :
    (c.as_bytes.drop 4).take (4 + c.data.length) = c.chunk_type.bytes ++ c.data := by
  rw [as_bytes_drop_four, List.take_add, List.take_left' h4, List.drop_left' h4,
    List.take_left]

theorem drop_four_take_split (value : List Nat) (n : Nat) :
    (value.drop 4).take (4 + n) = (value.drop 4).take 4 ++ (value.drop 8).take n := by
  rw [List.take_add, List.drop_drop]

/-! ## Claim theorems -/

/-- C1: the claim states that `Chunk::try_from` returns a result and
never aborts, in particular on buffers of length at least 12 whose
declared length field exceeds the actual length.  On exactly such a
buffer (12 bytes, declared length 13) the subtraction
`value.len() - length` underflows — the default (debug) profile aborts
the process there, contradicting the spec's propagation policy; the
release profile wraps and returns the `LengthMismatch`-kind error. -/
theorem C1_sub_underflow_at_failing_input :
    Chunk.tryFromSubUnderflows shortDeclaredFrame = true ∧
    Chunk.tryFrom shortDeclaredFrame = .error "Invalid input" := by
  constructor
  · decide
  · decide

/-- C5 counterexample: the payload of the end-to-end example is 42
bytes, not 44, so `length()` on the constructed chunk is 42, not 44 as
the claim states. -/
theorem C5_claim_false_at_test_vector :
    msgBytes.length = 42 ∧ Chunk.length_u32 (Chunk.new rustTy msgBytes) ≠ 44 := by
  constructor
  · decide
  · decide

/-- C5 (amended): for type `"RuSt"` and the 42-byte payload
`"This is where your secret message will be!"`, `length()` is 42 and
`crc()` is 2882656334; the 54-byte frame parses back to an identical
chunk, and the same frame with checksum field 2882656333 fails with the
`ChecksumMismatch`-kind error. -/
theorem C5_end_to_end_example :
    (Chunk.new rustTy msgBytes).length_u32 = 42 ∧
    (Chunk.new rustTy msgBytes).crc = 2882656334 ∧
    (Chunk.as_bytes (Chunk.new rustTy msgBytes)).length = 54 ∧
    Chunk.tryFrom (Chunk.as_bytes (Chunk.new rustTy msgBytes)) = .ok (Chunk.new rustTy msgBytes) ∧
    Chunk.tryFrom corruptFrame = .error "Invalid CRC" := by
  refine ⟨by decide, by decide, by decide, by decide, by decide⟩

/-- C3: every chunk that exists — built by `Chunk::new` or produced by
successful parsing — has its `crc` field equal to the CRC-32 (IEEE)
of the 4 type-code bytes followed by the payload bytes. -/
theorem C3_checksum_invariant :
    (∀ (t : ChunkType) (d : List Nat),
      (Chunk.new t d).crc =
        checksum_ieee ((Chunk.new t d).chunk_type.bytes ++ (Chunk.new t d).data)) ∧
    (∀ (value : List Nat) (c : Chunk), Chunk.tryFrom value = .ok c →
      c.crc = checksum_ieee (c.chunk_type.bytes ++ c.data)) := by
  constructor
  · intro t d
    rfl
  · intro value c h
    obtain ⟨h1, h2, h3, rfl⟩ := tryFrom_ok_inv h
    show u32_from_be_bytes (value.drop (8 + (value.length - 12))) =
      checksum_ieee ((value.drop 4).take 4 ++ (value.drop 8).take (value.length - 12))
    rw [h3, drop_four_take_split]

/-- C3 witness: the invariant instantiated on the chunk parsed from the
minimal `"RuSt"` frame with empty payload. -/
theorem C3_checksum_invariant_witness :
    chunkRuSt0.crc = checksum_ieee (chunkRuSt0.chunk_type.bytes ++ chunkRuSt0.data) :=
  C3_checksum_invariant.2 ([0, 0, 0, 0] ++ [82, 117, 83, 116] ++ u32_to_be_bytes 3565422908)
    chunkRuSt0 (by decide)

/-- C6: serialization produces, in order, the 4-byte big-endian length
(the `length()` value), the 4 type-code bytes, the payload verbatim and
the 4-byte big-endian checksum, with total length 12 plus the payload
length; `as_bytes` is a total function, so it never fails. -/
theorem C6_serialize_layout (c : Chunk) (h4 : c.chunk_type.bytes.length = 4) :
    c.as_bytes.take 4 = u32_to_be_bytes c.length_u32 ∧
    (c.as_bytes.drop 4).take 4 = c.chunk_type.bytes ∧
    (c.as_bytes.drop 8).take c.data.length = c.data ∧
    c.as_bytes.drop (8 + c.data.length) = u32_to_be_bytes c.crc ∧
    c.as_bytes.length = 12 + c.data.length :=
  ⟨as_bytes_take_four c, as_bytes_drop_four_take_four c h4,
   as_bytes_drop_eight_take c h4, as_bytes_drop_tail c h4, as_bytes_length c h4⟩

/-- C6 witness: the layout instantiated on the parsed minimal `"RuSt"`
chunk. -/
theorem C6_serialize_layout_witness :
    chunkRuSt0.as_bytes.take 4 = u32_to_be_bytes chunkRuSt0.length_u32 ∧
    (chunkRuSt0.as_bytes.drop 4).take 4 = chunkRuSt0.chunk_type.bytes ∧
    (chunkRuSt0.as_bytes.drop 8).take chunkRuSt0.data.length = chunkRuSt0.data ∧
    chunkRuSt0.as_bytes.drop (8 + chunkRuSt0.data.length) = u32_to_be_bytes chunkRuSt0.crc ∧
    chunkRuSt0.as_bytes.length = 12 + chunkRuSt0.data.length :=
  C6_serialize_layout chunkRuSt0 (by decide)

/-- C7 counterexample: for the payload of 2 ^ 32 zero bytes,
`Chunk::new` stores `length = 2 ^ 32` but `length()` returns
`length as u32 = 0`, so the accessor does not equal the payload's byte
count. -/
theorem C7_claim_false_at_huge_payload :
    Chunk.length_u32 (Chunk.new rustTy (List.replicate (2 ^ 32) 0)) ≠
      (List.replicate (2 ^ 32) 0).length := by
  rw [Chunk.length_u32_def, Chunk.new_length, List.length_replicate, Nat.mod_self]
  norm_num

/-- C7 (amended): `length()` equals the payload byte count for every
constructed chunk whose payload is shorter than 2 ^ 32 bytes, and for
every successfully parsed chunk. -/
theorem C7_length_matches_payload :
    (∀ (t : ChunkType) (d : List Nat), d.length < 2 ^ 32 →
      (Chunk.new t d).length_u32 = d.length) ∧
    (∀ (value : List Nat) (c : Chunk), (∀ b ∈ value, b < 256) →
      value.length < 2 ^ 64 → Chunk.tryFrom value = .ok c →
      c.length_u32 = c.data.length) := by
  constructor
  · intro t d hd
    rw [Chunk.length_u32_def, Chunk.new_length]
    exact Nat.mod_eq_of_lt hd
  · intro value c hb h64 h
    obtain ⟨h1, h2, h3, rfl⟩ := tryFrom_ok_inv h
    have hdecl : u32_from_be_bytes (value.take 4) < 2 ^ 32 :=
      u32_from_be_bytes_lt fun b hbm => hb b (List.take_subset 4 value hbm)
    have hlen : value.length = u32_from_be_bytes (value.take 4) + 12 :=
      (usizeSub_eq_twelve_iff h64 hdecl).1 h2
    show u32_from_be_bytes (value.take 4) % 2 ^ 32 =
      ((value.drop 8).take (value.length - 12)).length
    rw [List.length_take, List.length_drop, Nat.mod_eq_of_lt hdecl]
    omega

/-- C7 witness: the amended claim instantiated on the `"RuSt"` test
chunk and on the parsed minimal `"RuSt"` chunk. -/
theorem C7_length_matches_payload_witness :
    (Chunk.new rustTy msgBytes).length_u32 = msgBytes.length ∧
    chunkRuSt0.length_u32 = chunkRuSt0.data.length :=
  ⟨C7_length_matches_payload.1 rustTy msgBytes (by decide),
   C7_length_matches_payload.2
     ([0, 0, 0, 0] ++ [82, 117, 83, 116] ++ u32_to_be_bytes 3565422908)
     chunkRuSt0 (by decide) (by decide) (by decide)⟩

/-- C2 counterexample: for the payload of 2 ^ 32 zero bytes the length
field written by `as_bytes` wraps to 0, so parsing the serialization of
the constructed chunk fails with the `LengthMismatch`-kind error
instead of succeeding. -/
theorem C2_roundtrip_fails_at_huge_payload :
    Chunk.tryFrom (Chunk.as_bytes (Chunk.new rustTy (List.replicate (2 ^ 32) 0))) =
      .error "Invalid input" := by
  have h4 : (Chunk.new rustTy (List.replicate (2 ^ 32) 0)).chunk_type.bytes.length = 4 := by
    rw [Chunk.new_chunk_type]
    rfl
  have hlen : (Chunk.as_bytes (Chunk.new rustTy (List.replicate (2 ^ 32) 0))).length =
      12 + 2 ^ 32 := by
    rw [as_bytes_length _ h4, Chunk.new_data, List.length_replicate]
  have hdecl : u32_from_be_bytes
      ((Chunk.as_bytes (Chunk.new rustTy (List.replicate (2 ^ 32) 0))).take 4) = 0 := by
    rw [as_bytes_take_four, u32_from_to_be_bytes, Chunk.new_length, List.length_replicate]
    norm_num
  apply tryFrom_eq_error_of_mismatch
  · rw [hlen]
    norm_num
  · rw [hlen, hdecl]
    unfold usizeSub
    norm_num

/-- C2 (amended): for every 4-byte type code and every payload of fewer
than 2 ^ 32 bytes, parsing the serialization of the constructed chunk
succeeds and yields a chunk equal to the constructed one (same length,
type bytes, payload and checksum). -/
theorem C2_roundtrip (t : ChunkType) (d : List Nat) (h4 : t.bytes.length = 4)
    (htb : ∀ b ∈ t.bytes, b < 256) (hdb : ∀ b ∈ d, b < 256)
    (hlen : d.length < 2 ^ 32) :
    Chunk.tryFrom (Chunk.as_bytes (Chunk.new t d)) = .ok (Chunk.new t d) := by
  have h4' : (Chunk.new t d).chunk_type.bytes.length = 4 := h4
  have hserlen : (Chunk.new t d).as_bytes.length = 12 + d.length :=
    as_bytes_length (Chunk.new t d) h4'
  have hcrclt : (Chunk.new t d).crc < 2 ^ 32 := by
    refine checksum_ieee_lt fun b hbm => ?_
    rcases List.mem_append.mp hbm with hm | hm
    · exact lt_trans (htb b hm) (by norm_num)
    · exact lt_trans (hdb b hm) (by norm_num)
  have hdecl : u32_from_be_bytes ((Chunk.new t d).as_bytes.take 4) = d.length := by
    rw [as_bytes_take_four, u32_from_to_be_bytes]
    show d.length % 2 ^ 32 % 2 ^ 32 = d.length
    omega
  have h12 : ¬ (Chunk.new t d).as_bytes.length < 12 := by
    rw [hserlen]; omega
  have hsub : usizeSub (Chunk.new t d).as_bytes.length
      (u32_from_be_bytes ((Chunk.new t d).as_bytes.take 4)) = 12 := by
    rw [hserlen, hdecl]
    exact (usizeSub_eq_twelve_iff (by omega) hlen).2 (by omega)
  have hdlen : (Chunk.new t d).as_bytes.length - 12 = (Chunk.new t d).data.length := by
    rw [hserlen]
    show 12 + d.length - 12 = d.length
    omega
  have hstored : u32_from_be_bytes
      ((Chunk.new t d).as_bytes.drop (8 + ((Chunk.new t d).as_bytes.length - 12))) =
      (Chunk.new t d).crc := by
    rw [hdlen, as_bytes_drop_tail _ h4', u32_from_to_be_bytes, Nat.mod_eq_of_lt hcrclt]
  have hrecomputed : checksum_ieee
      (((Chunk.new t d).as_bytes.drop 4).take (4 + ((Chunk.new t d).as_bytes.length - 12))) =
      (Chunk.new t d).crc := by
    rw [hdlen, as_bytes_middle _ h4']
    rfl
  rw [tryFrom_eq_ok h12 hsub (hstored.trans hrecomputed.symm)]
  congr 1
  rw [Chunk.mk.injEq]
  refine ⟨by rw [hdecl]; rfl, ?_, ?_, hstored⟩
  · rw [as_bytes_drop_four_take_four _ h4']
  · rw [hdlen, as_bytes_drop_eight_take _ h4']

/-- C2 witness: the round-trip instantiated on the `"RuSt"` test
chunk. -/
theorem C2_roundtrip_witness :
    Chunk.tryFrom (Chunk.as_bytes (Chunk.new rustTy msgBytes)) = .ok (Chunk.new rustTy msgBytes) :=
  C2_roundtrip rustTy msgBytes (by decide) (by decide) (by decide) (by decide)

/-- C4: parsing fails exactly as follows, checks in order with the
first failure reported: `TooShort` (`"Invalid length"`) iff the input
length is below 12; otherwise `LengthMismatch` (`"Invalid input"`) iff
the input length minus the declared big-endian length field, as exact
integers, is not 12; otherwise `ChecksumMismatch` (`"Invalid CRC"`)
iff the CRC-32 recomputed over bytes `[4, 8 + declared)` differs from
the stored trailing big-endian checksum; otherwise parsing succeeds. -/
theorem C4_parse_error_conditions (value : List Nat)
    (hb : ∀ b ∈ value, b < 256) (h64 : value.length < 2 ^ 64) :
    (Chunk.tryFrom value = .error "Invalid length" ↔ value.length < 12) ∧
    (12 ≤ value.length →
      (Chunk.tryFrom value = .error "Invalid input" ↔
        (value.length : Int) - u32_from_be_bytes (value.take 4) ≠ 12) ∧
      ((value.length : Int) - u32_from_be_bytes (value.take 4) = 12 →
        (Chunk.tryFrom value = .error "Invalid CRC" ↔
          u32_from_be_bytes (value.drop (8 + u32_from_be_bytes (value.take 4))) ≠
            checksum_ieee ((value.drop 4).take (4 + u32_from_be_bytes (value.take 4)))) ∧
        (u32_from_be_bytes (value.drop (8 + u32_from_be_bytes (value.take 4))) =
            checksum_ieee ((value.drop 4).take (4 + u32_from_be_bytes (value.take 4))) →
          ∃ c : Chunk, Chunk.tryFrom value = .ok c))) := by
  have hdecl : u32_from_be_bytes (value.take 4) < 2 ^ 32 :=
    u32_from_be_bytes_lt fun b h => hb b (List.take_subset 4 value h)
  by_cases h1 : value.length < 12
  · exact ⟨⟨fun _ => h1, fun _ => tryFrom_eq_error_of_short h1⟩,
      fun h12 => absurd h1 (by omega)⟩
  · by_cases h2 : usizeSub value.length (u32_from_be_bytes (value.take 4)) = 12
    · have hL : value.length = u32_from_be_bytes (value.take 4) + 12 :=
        (usizeSub_eq_twelve_iff h64 hdecl).1 h2
      have hoff : value.length - 12 = u32_from_be_bytes (value.take 4) := by omega
      by_cases h3 : u32_from_be_bytes (value.drop (8 + (value.length - 12))) =
          checksum_ieee ((value.drop 4).take (4 + (value.length - 12)))
      · have hok := tryFrom_eq_ok h1 h2 h3
        refine ⟨⟨fun h => ?_, fun h => absurd h h1⟩, fun _ => ?_⟩
        · rw [hok] at h
          exact Except.noConfusion h
        · refine ⟨⟨fun h => ?_, fun hne => absurd (by omega) hne⟩, fun _ => ?_⟩
          · rw [hok] at h
            exact Except.noConfusion h
          · refine ⟨⟨fun h => ?_, fun hne => absurd (by rw [← hoff]; exact h3) hne⟩,
              fun _ => ⟨_, hok⟩⟩
            rw [hok] at h
            exact Except.noConfusion h
      · have herr := tryFrom_eq_error_of_crc h1 h2 h3
        refine ⟨⟨fun h => ?_, fun h => absurd h h1⟩, fun _ => ?_⟩
        · rw [herr] at h
          exact absurd h (by decide)
        · refine ⟨⟨fun h => ?_, fun hne => absurd (by omega) hne⟩, fun _ => ?_⟩
          · rw [herr] at h
            exact absurd h (by decide)
          · refine ⟨⟨fun _ => by rw [← hoff] at *; exact h3, fun _ => herr⟩, fun hceq => ?_⟩
            exact absurd (by rw [← hoff] at hceq; exact hceq) h3
    · have herr := tryFrom_eq_error_of_mismatch h1 h2
      have hne12 : (value.length : Int) - u32_from_be_bytes (value.take 4) ≠ 12 := by
        intro hc
        exact h2 ((usizeSub_eq_twelve_iff h64 hdecl).2 (by omega))
      refine ⟨⟨fun h => ?_, fun h => absurd h h1⟩, fun _ => ?_⟩
      · rw [herr] at h
        exact absurd h (by decide)
      · exact ⟨⟨fun _ => hne12, fun _ => herr⟩, fun heq => absurd heq hne12⟩

/-- C4 witness: the characterization applied to the corrupted 54-byte
`"RuSt"` frame, whose stored checksum differs from the recomputed
one. -/
theorem C4_parse_error_conditions_witness :
    Chunk.tryFrom corruptFrame = .error "Invalid CRC" :=
  ((((C4_parse_error_conditions corruptFrame (by decide) (by decide)).2
    (by decide)).2 (by decide)).1).mpr (by decide)

/-- C8: `ChunkType::from_str` fails with the `InvalidLength` kind
(`"Invalid string length"`) iff the byte count is not 4, this check
first; otherwise it fails with the `InvalidCharacter` kind
(`"Invalid string"`) iff some byte is non-ASCII or not an ASCII
alphabetic letter; otherwise it succeeds and stores the 4 input bytes
verbatim. -/
theorem C8_fromStr_conditions (s : List Nat) :
    (ChunkType.fromStr s = .error "Invalid string length" ↔ s.length ≠ 4) ∧
    (s.length = 4 →
      (ChunkType.fromStr s = .error "Invalid string" ↔
        ∃ b ∈ s, isAsciiByte b = false ∨ isAsciiAlphabetic b = false) ∧
      ((∀ b ∈ s, isAsciiAlphabetic b = true) → ChunkType.fromStr s = .ok ⟨s⟩)) := by
  have hal : ∀ b : Nat, isAsciiAlphabetic b = true → isAsciiByte b = true := by
    intro b hb
    simp only [isAsciiAlphabetic, Bool.or_eq_true, Bool.and_eq_true, decide_eq_true_eq] at hb
    simp only [isAsciiByte, decide_eq_true_eq]
    omega
  by_cases hlen : s.length = 4
  · by_cases hA : s.all isAsciiByte = true
    · by_cases hB : s.all isAsciiAlphabetic = true
      · have hres : ChunkType.fromStr s = .ok ⟨s.take 4⟩ := by
          simp [ChunkType.fromStr, hlen, hA, hB]
        have htake : s.take 4 = s := by
          rw [← hlen]
          exact List.take_length s
        refine ⟨⟨fun h => ?_, fun h => absurd hlen h⟩, fun _ => ⟨⟨fun h => ?_, ?_⟩, fun _ => ?_⟩⟩
        · rw [hres] at h
          exact Except.noConfusion h
        · rw [hres] at h
          exact Except.noConfusion h
        · rintro ⟨b, hbm, hbp⟩
          have hba : isAsciiAlphabetic b = true := List.all_eq_true.1 hB b hbm
          rcases hbp with hbp | hbp
          · rw [hal b hba] at hbp
            exact Bool.noConfusion hbp
          · rw [hba] at hbp
            exact Bool.noConfusion hbp
        · rw [hres, htake]
      · have hB' : s.all isAsciiAlphabetic = false := Bool.eq_false_iff.mpr hB
        have hres : ChunkType.fromStr s = .error "Invalid string" := by
          simp [ChunkType.fromStr, hlen, hA, hB']
        refine ⟨⟨fun h => ?_, fun h => absurd hlen h⟩,
          fun _ => ⟨⟨fun _ => ?_, fun _ => hres⟩, fun hall => absurd (List.all_eq_true.2 hall) hB⟩⟩
        · rw [hres] at h
          exact absurd h (by decide)
        · obtain ⟨b, hbm, hbp⟩ := List.all_eq_false.1 hB'
          exact ⟨b, hbm, Or.inr (Bool.eq_false_iff.mpr hbp)⟩
    · have hA' : s.all isAsciiByte = false := Bool.eq_false_iff.mpr hA
      have hres : ChunkType.fromStr s = .error "Invalid string" := by
        simp [ChunkType.fromStr, hlen, hA']
      refine ⟨⟨fun h => ?_, fun h => absurd hlen h⟩,
        fun _ => ⟨⟨fun _ => ?_, fun _ => hres⟩, fun hall => ?_⟩⟩
      · rw [hres] at h
        exact absurd h (by decide)
      · obtain ⟨b, hbm, hbp⟩ := List.all_eq_false.1 hA'
        exact ⟨b, hbm, Or.inl (Bool.eq_false_iff.mpr hbp)⟩
      · exact absurd (List.all_eq_true.2 fun b hbm => hal b (hall b hbm)) hA
  · refine ⟨⟨fun _ => hlen, fun _ => by simp [ChunkType.fromStr, hlen]⟩,
      fun h => absurd h hlen⟩

/-- C8 witness: text construction from `"RuSt"` (bytes 82, 117, 83,
116) succeeds and stores the bytes verbatim. -/
theorem C8_fromStr_conditions_witness :
    ChunkType.fromStr [82, 117, 83, 116] = .ok ⟨[82, 117, 83, 116]⟩ :=
  ((C8_fromStr_conditions [82, 117, 83, 116]).2 (by decide)).2 (by decide)

/-- C9: `is_valid` returns true iff all bytes are ASCII alphabetic and
bit 5 of byte 2 is clear; moreover the byte-range test inside
`is_valid` accepts exactly the bytes accepted by the ASCII-alphabetic
predicate used by `from_str`. -/
theorem C9_is_valid_conditions :
    (∀ c : ChunkType,
      ChunkType.is_valid c = true ↔
        ((∀ b ∈ c.bytes, isAsciiAlphabetic b = true) ∧
          (c.bytes.getD 2 0).testBit 5 = false)) ∧
    (∀ b : Nat, ChunkType.rangeCheck b = isAsciiAlphabetic b) := by
  have hrange : ∀ b : Nat, ChunkType.rangeCheck b = isAsciiAlphabetic b := by
    intro b
    rw [Bool.eq_iff_iff]
    simp only [ChunkType.rangeCheck, isAsciiAlphabetic, Bool.and_eq_true, Bool.or_eq_true,
      Bool.not_eq_true', Bool.or_eq_false_iff, Bool.and_eq_false_iff,
      decide_eq_true_eq, decide_eq_false_iff_not]
    omega
  refine ⟨fun c => ?_, hrange⟩
  rw [ChunkType.is_valid, Bool.and_eq_true, List.all_eq_true,
    ChunkType.is_reserved_bit_valid, and_32_eq_zero_iff]
  constructor
  · rintro ⟨hall, hbit⟩
    exact ⟨fun b hbm => by rw [← hrange b]; exact hall b hbm, hbit⟩
  · rintro ⟨hall, hbit⟩
    exact ⟨fun b hbm => by rw [hrange b]; exact hall b hbm, hbit⟩

/-- C9 witness: the equivalence applied to the type code `"RuSt"` and
to the byte 82. -/
theorem C9_is_valid_conditions_witness :
    ChunkType.is_valid rustTy = true ∧ ChunkType.rangeCheck 82 = isAsciiAlphabetic 82 :=
  ⟨(C9_is_valid_conditions.1 rustTy).mpr ⟨by decide, by decide⟩,
   C9_is_valid_conditions.2 82⟩

/-- C10: chunk parsing never checks type-code validity: `ChunkType`
construction from 4 raw bytes succeeds for every byte vector, and
every frame passing the length and CRC checks parses successfully,
its chunk type wrapping bytes 4..8 verbatim, with no condition on
those bytes. -/
theorem C10_parse_ignores_type_validity :
    (∀ bs : List Nat, ChunkType.tryFrom bs = .ok ⟨bs⟩) ∧
    (∀ value : List Nat, (∀ b ∈ value, b < 256) → value.length < 2 ^ 64 →
      12 ≤ value.length →
      value.length = u32_from_be_bytes (value.take 4) + 12 →
      u32_from_be_bytes (value.drop (8 + (value.length - 12))) =
        checksum_ieee ((value.drop 4).take (4 + (value.length - 12))) →
      ∃ c : Chunk, Chunk.tryFrom value = .ok c ∧
        c.chunk_type = ⟨(value.drop 4).take 4⟩) := by
  refine ⟨fun bs => rfl, fun value hb h64 h12 hlen hcrc => ?_⟩
  have hdecl : u32_from_be_bytes (value.take 4) < 2 ^ 32 :=
    u32_from_be_bytes_lt fun b h => hb b (List.take_subset 4 value h)
  have hsub : usizeSub value.length (u32_from_be_bytes (value.take 4)) = 12 :=
    (usizeSub_eq_twelve_iff h64 hdecl).2 hlen
  exact ⟨_, tryFrom_eq_ok (by omega) hsub hcrc, rfl⟩

/-- C10 witness: a consistent frame whose type code `[1, 2, 3, 255]`
is invalid (non-alphabetic bytes, reserved bit set) still parses. -/
theorem C10_parse_ignores_type_validity_witness :
    ChunkType.is_valid ⟨[1, 2, 3, 255]⟩ = false ∧
    (∃ c : Chunk, Chunk.tryFrom oddTypeFrame = .ok c ∧
      c.chunk_type = ⟨(oddTypeFrame.drop 4).take 4⟩) :=
  ⟨by decide,
   C10_parse_ignores_type_validity.2 oddTypeFrame (by decide) (by decide) (by decide)
     (by decide) (by decide)⟩

end PngMessage
